import Mathlib

/-!
Shallow embedding of `src/file_handle.py` (class `FileHandle`): a small
filesystem utility layer with directory creation/removal, file backup and
copy-based transfer.  OS-level effects (the outcome of `mkdir`, `rmdir`,
`shutil.copy2`, and the `exists()` checks) are passed in explicitly as
parameters; the Python control flow over those outcomes is translated
verbatim.  Log messages and exception message strings carry no control
flow and are elided.
-/

set_option autoImplicit false

namespace FileHandle

/-- OS error codes (`errno`) distinguished by the code, plus a catch-all
for any other code. -/
inductive Errno where
  | EACCES
  | EROFS
  | ENOTEMPTY
  | ENOTDIR
  | ENOENT
  | other (code : Nat)
  deriving DecidableEq

/-- An `OSError` as seen by the handlers: only its `errno` influences
control flow. -/
structure OSErr where
  errno : Errno
  deriving DecidableEq

/-- The exception classes of `file_handle.py` (lines 15-28) plus raw
`OSError` pass-through. -/
inductive Exc where
  | sourceNotValid
  | destinationNotValid
  | permissionDenied
  | readOnly
  | osError (e : OSErr)
  deriving DecidableEq

/-- A raised exception: its class plus the explicit `raise ... from cause`
chain (`none` when raised without `from`). -/
structure Raised where
  exc : Exc
  cause : Option Exc
  deriving DecidableEq

/-- Embeds `FileHandle.make_directory` (lines 43-56).  `mkdir_outcome` is the OS
response to `path.mkdir(parents=True, exist_ok=True)`: `none` = success,
`some e` = `OSError` with that errno.  The Python returns `True` on
success and falls off the end of the `except` block (returning `None`)
when neither `raise` fires; the branching below keeps the source's exact
(inverted) conditions: `if error.errno != errno.EACCES: raise
PermissionDeniedError(...)` then `elif error.errno == errno.EROFS: raise
ReadOnlyError(...)`. -/
def make_directory (mkdir_outcome : Option OSErr) : Except Raised (Option Bool) :=
  match mkdir_outcome with
  | none => Except.ok (some true)
  | some e =>
    if e.errno ≠ Errno.EACCES then
      Except.error ⟨Exc.permissionDenied, none⟩
    else if e.errno = Errno.EROFS then
      Except.error ⟨Exc.readOnly, none⟩
    else
      Except.ok none

/-- Embeds `FileHandle.validate_paths` (lines 104-119): `source.exists()` and
`destination.exists()` are passed as booleans.  Raises
`SourceNotValidError` first, `DestinationNotValidError` second, returns
`None` (unit) when both exist. -/
def validate_paths (source_exists dest_exists : Bool) : Except Raised Unit :=
  if !source_exists then
    Except.error ⟨Exc.sourceNotValid, none⟩
  else if !dest_exists then
    Except.error ⟨Exc.destinationNotValid, none⟩
  else
    Except.ok ()

/-- Embeds `FileHandle.copy` (lines 121-138): `shutil.copy2` either succeeds or
raises an `OSError`, which `copy` logs and re-raises unchanged. -/
def copy (copy2_outcome : Option OSErr) : Except Raised Bool :=
  match copy2_outcome with
  | none => Except.ok true
  | some e => Except.error ⟨Exc.osError e, none⟩

/-- Observable calls made by `transfer` on its collaborators: the
`make_directory(destination)` call and the `copy_func(source, destination)`
call, with the arguments passed. -/
inductive TEvent (α : Type) where
  | mkdirCall (path : α)
  | copyCall (source destination : α)
  deriving DecidableEq

/-- Embeds `FileHandle.transfer` (lines 140-167), instrumented with the list of
collaborator calls it performs, in order.  `exists_fn` models
`Path.exists`, `mkdir_outcome` the OS response should `make_directory` be
invoked on the destination, and `copy_func` the caller-supplied copy
strategy (its result: `Except.ok ()` or a raised exception).  The source's
exception handlers are translated branch for branch:

- `except DestinationNotValidError`: call `make_directory(destination)`;
  inside, `except (PermissionDeniedError, ReadOnlyError) as error:
  raise DestinationNotValidError from error`; any other exception from
  `make_directory` is uncaught and propagates;
- `except SourceNotValidError as error: raise SourceNotValidError from
  error`;
- then `copy_func(source, destination)` runs after the `try` block
  (transfer returns `None` = unit on success). -/
def transfer {α : Type} (exists_fn : α → Bool) (mkdir_outcome : Option OSErr)
    (copy_func : α → α → Except Raised Unit) (source destination : α) :
    Except Raised Unit × List (TEvent α) :=
  match validate_paths (exists_fn source) (exists_fn destination) with
  | Except.ok _ =>
    (copy_func source destination, [TEvent.copyCall source destination])
  | Except.error r =>
    match r.exc with
    | Exc.destinationNotValid =>
      match make_directory mkdir_outcome with
      | Except.ok _ =>
        (copy_func source destination,
          [TEvent.mkdirCall destination, TEvent.copyCall source destination])
      | Except.error r2 =>
        match r2.exc with
        | Exc.permissionDenied =>
          (Except.error ⟨Exc.destinationNotValid, some r2.exc⟩,
            [TEvent.mkdirCall destination])
        | Exc.readOnly =>
          (Except.error ⟨Exc.destinationNotValid, some r2.exc⟩,
            [TEvent.mkdirCall destination])
        | _ => (Except.error r2, [TEvent.mkdirCall destination])
    | Exc.sourceNotValid =>
      (Except.error ⟨Exc.sourceNotValid, some r.exc⟩, [])
    | _ => (Except.error r, [])

/-- Embeds `FileHandle.upload` (lines 169-186): calls `transfer` and returns
`True`. -/
def upload {α : Type} (exists_fn : α → Bool) (mkdir_outcome : Option OSErr)
    (copy_func : α → α → Except Raised Unit) (source destination : α) :
    Except Raised Bool × List (TEvent α) :=
  let r := transfer exists_fn mkdir_outcome copy_func source destination
  match r.1 with
  | Except.ok _ => (Except.ok true, r.2)
  | Except.error e => (Except.error e, r.2)

/-- Embeds `FileHandle.download` (lines 188-205): same body as `upload`. -/
def download {α : Type} (exists_fn : α → Bool) (mkdir_outcome : Option OSErr)
    (copy_func : α → α → Except Raised Unit) (source destination : α) :
    Except Raised Bool × List (TEvent α) :=
  let r := transfer exists_fn mkdir_outcome copy_func source destination
  match r.1 with
  | Except.ok _ => (Except.ok true, r.2)
  | Except.error e => (Except.error e, r.2)

mutual
/-- A directory tree as seen through `Path.is_file` / `Path.iterdir`:
a node is either a file or a directory with an ordered sequence of
children.  Entry names are abstracted to `Nat` identifiers (the claims
never inspect them). -/
inductive FsTree where
  | file (name : Nat) : FsTree
  | dir (name : Nat) (children : FsForest) : FsTree
/-- An ordered sequence of sibling trees (`Path.iterdir` order). -/
inductive FsForest where
  | nil : FsForest
  | cons (head : FsTree) (tail : FsForest) : FsForest
end

/-- Deletions performed against the filesystem: `child.unlink()` and
`path.rmdir()`, tagged with the entry's name. -/
inductive Del where
  | unlink (name : Nat)
  | rmdir (name : Nat)
  deriving DecidableEq

/-- The OS response to `path.rmdir()` on a directory with the given
children, on a healthy filesystem: success when empty, `OSError` with
`errno.ENOTEMPTY` otherwise. -/
def rmdir_outcome_of (children : FsForest) : Option OSErr :=
  match children with
  | FsForest.nil => none
  | FsForest.cons _ _ => some ⟨Errno.ENOTEMPTY⟩

/-- The control-flow skeleton of `FileHandle.remove_directory`
(lines 69-76): the initial `path.rmdir()` attempt and the `except OSError`
handler, with the recursive-removal block (lines 77-83) abstracted as the
`recursive_fallback` outcome.  `if error.errno != errno.ENOTEMPTY:
... raise` re-raises the `OSError` unchanged; only the `else` branch runs
the fallback. -/
def remove_directory_attempt (rmdir_outcome : Option OSErr)
    (recursive_fallback : Except Raised Bool) : Except Raised Bool :=
  match rmdir_outcome with
  | none => Except.ok true
  | some e =>
    if e.errno ≠ Errno.ENOTEMPTY then
      Except.error ⟨Exc.osError e, none⟩
    else
      recursive_fallback

mutual
/-- Embeds `FileHandle.remove_directory` (lines 58-83) run against a directory
tree on a healthy filesystem, instrumented with the list of deletions
performed in order.  `path.rmdir()` on a file fails with `ENOTDIR`
(≠ `ENOTEMPTY`, so the `OSError` is re-raised); on a non-empty directory
it fails with `ENOTEMPTY`, which triggers the `for child in
path.iterdir()` loop, after which `path.rmdir()` succeeds and `True` is
returned. -/
def remove_directory (t : FsTree) : Except Raised (List Del) :=
  match t with
  | FsTree.file _ => Except.error ⟨Exc.osError ⟨Errno.ENOTDIR⟩, none⟩
  | FsTree.dir n children =>
    match rmdir_outcome_of children with
    | none => Except.ok [Del.rmdir n]
    | some e =>
      if e.errno ≠ Errno.ENOTEMPTY then
        Except.error ⟨Exc.osError e, none⟩
      else
        match remove_directory_children children with
        | Except.error r => Except.error r
        | Except.ok evs => Except.ok (evs ++ [Del.rmdir n])

/-- The loop body of `remove_directory` (lines 77-81): each child that
satisfies `child.is_file()` is unlinked, every other child is recursed
into with `FileHandle.remove_directory(child)`. -/
def remove_directory_children (cs : FsForest) : Except Raised (List Del) :=
  match cs with
  | FsForest.nil => Except.ok []
  | FsForest.cons (FsTree.file fn) rest =>
    match remove_directory_children rest with
    | Except.ok evs => Except.ok (Del.unlink fn :: evs)
    | Except.error r => Except.error r
  | FsForest.cons (FsTree.dir dn dcs) rest =>
    match remove_directory (FsTree.dir dn dcs) with
    | Except.error r => Except.error r
    | Except.ok evs1 =>
      match remove_directory_children rest with
      | Except.ok evs2 => Except.ok (evs1 ++ evs2)
      | Except.error r => Except.error r
end

mutual
/-- Specification-level post-order traversal of a tree: all descendants
before the node itself, files unlinked, directories removed. -/
def postOrder (t : FsTree) : List Del :=
  match t with
  | FsTree.file n => [Del.unlink n]
  | FsTree.dir n cs => postOrderForest cs ++ [Del.rmdir n]

/-- Post-order deletions of a sequence of sibling trees, in order. -/
def postOrderForest (cs : FsForest) : List Del :=
  match cs with
  | FsForest.nil => []
  | FsForest.cons t rest => postOrder t ++ postOrderForest rest
end

/-- What `remove_directory` computes on a tree: an `ENOTDIR` failure on a
file, and the full post-order deletion list on a directory. -/
def removeSpec (t : FsTree) : Except Raised (List Del) :=
  match t with
  | FsTree.file _ => Except.error ⟨Exc.osError ⟨Errno.ENOTDIR⟩, none⟩
  | FsTree.dir n cs => Except.ok (postOrderForest cs ++ [Del.rmdir n])

/-- Embeds `Path.with_suffix` / `Path.suffix` semantics over the final path
component, as a list of characters.  `rfindDot` is `str.rfind('.')` in
`Option` form: the index of the last dot, if any. -/
def rfindDot (s : List Char) : Option Nat :=
  match s with
  | [] => none
  | c :: cs =>
    match rfindDot cs with
    | some j => some (j + 1)
    | none => if c = '.' then some 0 else none

/-- Embeds `PurePath.suffix`: the final component's extension, empty unless the
last dot sits strictly inside the name (`0 < i < len(name) - 1`). -/
def suffixOf (name : List Char) : List Char :=
  match rfindDot name with
  | none => []
  | some i => if 0 < i ∧ i < name.length - 1 then name.drop i else []

/-- Embeds `PurePath.with_suffix(suf)` on the final component: append `suf` when
the name has no suffix, otherwise drop the old suffix and append `suf`
(`name[:-len(old_suffix)] + suffix`). -/
def with_suffix (name suf : List Char) : List Char :=
  let old := suffixOf name
  if old.isEmpty then name ++ suf
  else name.take (name.length - old.length) ++ suf

/-- The `".bak"` suffix used by `create_backup`. -/
def bakSuffix : List Char := ['.', 'b', 'a', 'k']

/-- Embeds `FileHandle.create_backup` (lines 85-102): computes
`backup_path = path.with_suffix(".bak")`, calls
`FileHandle.copy(path, backup_path)` and returns `backup_path`; an
`OSError` from the copy is logged and re-raised unchanged.  The second
component records the `(source, destination)` pair passed to `copy`. -/
def create_backup (name : List Char) (copy2_outcome : Option OSErr) :
    Except Raised (List Char) × (List Char × List Char) :=
  let backup_path := with_suffix name bakSuffix
  match copy copy2_outcome with
  | Except.ok _ => (Except.ok backup_path, (name, backup_path))
  | Except.error r => (Except.error r, (name, backup_path))

/-- Number of `make_directory` calls recorded in a transfer event list. -/
def countMkdir {α : Type} : List (TEvent α) → Nat
  | [] => 0
  | TEvent.mkdirCall _ :: rest => countMkdir rest + 1
  | TEvent.copyCall _ _ :: rest => countMkdir rest

/-! ### Helper lemmas shared by the claim theorems -/

theorem make_directory_cases (mo : Option OSErr) :
    make_directory mo = Except.ok (some true) ∨ make_directory mo = Except.ok none ∨
    make_directory mo = Except.error ⟨Exc.permissionDenied, none⟩ := by
  cases mo with
  | none => exact Or.inl rfl
  | some e =>
    by_cases h : e.errno = Errno.EACCES
    · exact Or.inr (Or.inl (by simp [make_directory, h]))
    · exact Or.inr (Or.inr (by simp [make_directory, h]))

theorem transfer_eq_src_invalid {α : Type} (ef : α → Bool) (mo : Option OSErr)
    (cf : α → α → Except Raised Unit) (s d : α) (hs : ef s = false) :
    transfer ef mo cf s d =
      (Except.error ⟨Exc.sourceNotValid, some Exc.sourceNotValid⟩, []) := by
  simp [transfer, validate_paths, hs]

theorem transfer_eq_both_valid {α : Type} (ef : α → Bool) (mo : Option OSErr)
    (cf : α → α → Except Raised Unit) (s d : α) (hs : ef s = true) (hd : ef d = true) :
    transfer ef mo cf s d = (cf s d, [TEvent.copyCall s d]) := by
  simp [transfer, validate_paths, hs, hd]

theorem transfer_eq_mkdir_ok {α : Type} (ef : α → Bool) (mo : Option OSErr)
    (cf : α → α → Except Raised Unit) (s d : α) (hs : ef s = true) (hd : ef d = false)
    (ob : Option Bool) (hm : make_directory mo = Except.ok ob) :
    transfer ef mo cf s d =
      (cf s d, [TEvent.mkdirCall d, TEvent.copyCall s d]) := by
  simp [transfer, validate_paths, hs, hd, hm]

theorem transfer_eq_mkdir_caught {α : Type} (ef : α → Bool) (mo : Option OSErr)
    (cf : α → α → Except Raised Unit) (s d : α) (r2 : Raised)
    (hs : ef s = true) (hd : ef d = false)
    (hm : make_directory mo = Except.error r2)
    (h2 : r2.exc = Exc.permissionDenied ∨ r2.exc = Exc.readOnly) :
    transfer ef mo cf s d =
      (Except.error ⟨Exc.destinationNotValid, some r2.exc⟩,
        [TEvent.mkdirCall d]) := by
  rcases h2 with h2 | h2 <;> simp [transfer, validate_paths, hs, hd, hm, h2]

mutual
theorem remove_directory_eq_removeSpec (t : FsTree) :
    remove_directory t = removeSpec t :=
  match t with
  | FsTree.file _ => rfl
  | FsTree.dir n cs => by
    have ih := remove_directory_children_eq cs
    cases cs with
    | nil => rfl
    | cons c rest =>
      simp [remove_directory, removeSpec, rmdir_outcome_of, ih]

theorem remove_directory_children_eq (cs : FsForest) :
    remove_directory_children cs = Except.ok (postOrderForest cs) :=
  match cs with
  | FsForest.nil => rfl
  | FsForest.cons (FsTree.file fn) rest => by
    have ih := remove_directory_children_eq rest
    simp [remove_directory_children, postOrderForest, postOrder, ih]
  | FsForest.cons (FsTree.dir dn dcs) rest => by
    have ih1 := remove_directory_eq_removeSpec (FsTree.dir dn dcs)
    have ih2 := remove_directory_children_eq rest
    simp [remove_directory_children, postOrderForest, postOrder, ih1, ih2, removeSpec]
end

theorem rfindDot_eq_none {l : List Char} (h : '.' ∉ l) : rfindDot l = none := by
  induction l with
  | nil => rfl
  | cons c cs ih =>
    have hc : ¬ c = '.' := fun hc => h (hc ▸ List.mem_cons_self c cs)
    have hcs : '.' ∉ cs := fun hm => h (List.mem_cons_of_mem c hm)
    simp [rfindDot, ih hcs, hc]

theorem rfindDot_append (l1 l2 : List Char) (j : Nat)
    (h : rfindDot l2 = some j) : rfindDot (l1 ++ l2) = some (l1.length + j) := by
  induction l1 with
  | nil => simpa using h
  | cons c cs ih =>
    simp [rfindDot, ih]
    omega

theorem rfindDot_dot_cons (ext : List Char) (h : '.' ∉ ext) :
    rfindDot ('.' :: ext) = some 0 := by
  simp [rfindDot, rfindDot_eq_none h]

theorem suffixOf_stem_dot_ext (stem ext : List Char)
    (hstem : stem ≠ []) (hext : ext ≠ []) (hdot : '.' ∉ ext) :
    suffixOf (stem ++ '.' :: ext) = '.' :: ext := by
  have hfind : rfindDot (stem ++ '.' :: ext) = some stem.length := by
    have h := rfindDot_append stem ('.' :: ext) 0 (rfindDot_dot_cons ext hdot)
    simpa using h
  have hlen : (stem ++ '.' :: ext).length = stem.length + ext.length + 1 := by
    simp [List.length_append]
    omega
  have hcond : 0 < stem.length ∧ stem.length < (stem ++ '.' :: ext).length - 1 := by
    constructor
    · exact List.length_pos.mpr hstem
    · have hpos : 0 < ext.length := List.length_pos.mpr hext
      omega
  simp only [suffixOf, hfind]
  rw [if_pos hcond]
  exact List.drop_left stem ('.' :: ext)

theorem with_suffix_replaces (stem ext : List Char)
    (hstem : stem ≠ []) (hext : ext ≠ []) (hdot : '.' ∉ ext) :
    with_suffix (stem ++ '.' :: ext) bakSuffix = stem ++ bakSuffix := by
  unfold with_suffix
  rw [suffixOf_stem_dot_ext stem ext hstem hext hdot]
  simp [List.length_append, Nat.add_sub_cancel, List.take_left]

/-! ### Claim theorems -/

/-- C1: the claim states the spec-intended classification (permission
failure → PermissionDenied, read-only filesystem → ReadOnly, anything
else raw).  The code does the opposite: the inverted test
`error.errno != errno.EACCES` raises `PermissionDeniedError` for `EROFS`
and for every unrelated errno, the `EROFS` branch is unreachable, and a
genuine `EACCES` is swallowed (the function returns `None`).  This
theorem records the actual behaviour at the failing inputs: every
`OSError` either gets swallowed or becomes `PermissionDeniedError`. -/
theorem make_directory_misclassifies_errors :
    make_directory (some ⟨Errno.EROFS⟩) = Except.error ⟨Exc.permissionDenied, none⟩ ∧
    make_directory (some ⟨Errno.EACCES⟩) = Except.ok none ∧
    make_directory (some ⟨Errno.ENOENT⟩) = Except.error ⟨Exc.permissionDenied, none⟩ ∧
    (∀ e : OSErr, make_directory (some e) = Except.ok none ∨
      make_directory (some e) = Except.error ⟨Exc.permissionDenied, none⟩) := by
  refine ⟨rfl, rfl, rfl, fun e => ?_⟩
  by_cases h : e.errno = Errno.EACCES
  · exact Or.inl (by simp [make_directory, h])
  · exact Or.inr (by simp [make_directory, h])

/-- C2: `validate_paths` raises `SourceNotValidError` whenever the source
does not exist, regardless of the destination's existence (the
destination check is not evaluated); it raises `DestinationNotValidError`
only when the source exists and the destination does not; when both
exist it returns successfully (the function is pure, so nothing is
mutated). -/
theorem validate_paths_short_circuit :
    (∀ dest_exists : Bool,
      validate_paths false dest_exists = Except.error ⟨Exc.sourceNotValid, none⟩) ∧
    validate_paths true false = Except.error ⟨Exc.destinationNotValid, none⟩ ∧
    validate_paths true true = Except.ok () :=
  ⟨fun _ => rfl, rfl, rfl⟩

/-- C3: when the source does not exist, `transfer` propagates the
source-invalid failure (re-raised with the original as its cause) and
performs no collaborator calls at all — the event list is empty, so the
copy strategy is never invoked and nothing is copied. -/
theorem transfer_aborts_on_invalid_source {α : Type} (ef : α → Bool)
    (mo : Option OSErr) (cf : α → α → Except Raised Unit) (s d : α)
    (hs : ef s = false) :
    transfer ef mo cf s d =
      (Except.error ⟨Exc.sourceNotValid, some Exc.sourceNotValid⟩, []) :=
  transfer_eq_src_invalid ef mo cf s d hs

/-- Witness for C3 at source = 1, destination = 0 with existence
predicate `n == 0` (the source does not exist). -/
theorem transfer_aborts_on_invalid_source_witness :
    ((fun n : Nat => n == 0) 1 = false) ∧
    transfer (fun n : Nat => n == 0) none (fun _ _ => Except.ok ()) 1 0 =
      (Except.error ⟨Exc.sourceNotValid, some Exc.sourceNotValid⟩, []) :=
  ⟨rfl, transfer_aborts_on_invalid_source (fun n : Nat => n == 0) none
    (fun _ _ => Except.ok ()) 1 0 rfl⟩

/-- C4: when the source exists and the destination does not, and the
auto-creation of the destination directory succeeds (`mkdir` outcome
`none`), `transfer` calls `make_directory` on the destination and then
invokes the copy strategy with the original `(source, destination)`
pair; when the strategy succeeds the transfer returns successfully. -/
theorem transfer_autocreates_missing_destination {α : Type} (ef : α → Bool)
    (cf : α → α → Except Raised Unit) (s d : α)
    (hs : ef s = true) (hd : ef d = false) :
    transfer ef none cf s d =
      (cf s d, [TEvent.mkdirCall d, TEvent.copyCall s d]) ∧
    (cf s d = Except.ok () → (transfer ef none cf s d).1 = Except.ok ()) := by
  have h := transfer_eq_mkdir_ok ef none cf s d hs hd (some true) rfl
  refine ⟨h, fun hc => ?_⟩
  rw [h]
  exact hc

/-- Witness for C4 at source = 0 (exists), destination = 1 (missing)
with an always-succeeding copy strategy. -/
theorem transfer_autocreates_missing_destination_witness :
    ((fun n : Nat => n == 0) 0 = true) ∧
    ((fun n : Nat => n == 0) 1 = false) ∧
    transfer (fun n : Nat => n == 0) none (fun _ _ => Except.ok ()) 0 1 =
      (Except.ok (), [TEvent.mkdirCall 1, TEvent.copyCall 0 1]) ∧
    (transfer (fun n : Nat => n == 0) none (fun _ _ => Except.ok ()) 0 1).1 =
      Except.ok () := by
  have h := transfer_autocreates_missing_destination (fun n : Nat => n == 0)
    (fun _ _ => Except.ok ()) 0 1 rfl rfl
  exact ⟨rfl, rfl, h.1, h.2 rfl⟩

/-- C5: when destination validation fails and the subsequent
`make_directory` call fails with `PermissionDeniedError` or
`ReadOnlyError`, `transfer` re-raises `DestinationNotValidError` with
the causing exception chained (`raise DestinationNotValidError from
error`); only the mkdir call happened, the copy strategy never ran. -/
theorem transfer_wraps_mkdir_failure {α : Type} (ef : α → Bool)
    (mo : Option OSErr) (cf : α → α → Except Raised Unit) (s d : α)
    (r2 : Raised) (hs : ef s = true) (hd : ef d = false)
    (hm : make_directory mo = Except.error r2)
    (h2 : r2.exc = Exc.permissionDenied ∨ r2.exc = Exc.readOnly) :
    transfer ef mo cf s d =
      (Except.error ⟨Exc.destinationNotValid, some r2.exc⟩,
        [TEvent.mkdirCall d]) :=
  transfer_eq_mkdir_caught ef mo cf s d r2 hs hd hm h2

/-- Witness for C5: a `mkdir` failing with `EROFS` makes `make_directory`
raise `PermissionDeniedError` (the inverted branch), which `transfer`
wraps into `DestinationNotValidError` chained to it. -/
theorem transfer_wraps_mkdir_failure_witness :
    make_directory (some ⟨Errno.EROFS⟩) =
      Except.error ⟨Exc.permissionDenied, none⟩ ∧
    transfer (fun n : Nat => n == 0) (some ⟨Errno.EROFS⟩)
        (fun _ _ => Except.ok ()) 0 1 =
      (Except.error ⟨Exc.destinationNotValid, some Exc.permissionDenied⟩,
        [TEvent.mkdirCall 1]) :=
  ⟨rfl, transfer_wraps_mkdir_failure (fun n : Nat => n == 0)
    (some ⟨Errno.EROFS⟩) (fun _ _ => Except.ok ()) 0 1
    ⟨Exc.permissionDenied, none⟩ rfl rfl rfl (Or.inl rfl)⟩

/-- C6: `create_backup` always passes the original path and the computed
backup path to the copy primitive; on copy success it returns the
computed backup path (a path, not a boolean — the return type carries a
path); a copy failure propagates the raw `OSError` unchanged; and the
computed path replaces the last extension component with `.bak`:
for a name of the shape `stem.ext` (non-empty stem, non-empty dot-free
extension) the backup name is `stem.bak`. -/
theorem create_backup_spec (name : List Char) (o : Option OSErr) :
    (create_backup name o).2 = (name, with_suffix name bakSuffix) ∧
    (o = none →
      (create_backup name o).1 = Except.ok (with_suffix name bakSuffix)) ∧
    (∀ e : OSErr, o = some e →
      (create_backup name o).1 = Except.error ⟨Exc.osError e, none⟩) ∧
    (∀ stem ext : List Char, stem ≠ [] → ext ≠ [] → '.' ∉ ext →
      with_suffix (stem ++ '.' :: ext) bakSuffix = stem ++ bakSuffix) := by
  refine ⟨?_, ?_, ?_, with_suffix_replaces⟩
  · cases o <;> rfl
  · intro h
    subst h
    rfl
  · intro e h
    subst h
    rfl

/-- Witness for C6 at the name `a.txt`: the backup path is `a.bak`, the
copy primitive receives `(a.txt, a.bak)`, and on success the path is
returned. -/
theorem create_backup_spec_witness :
    (create_backup ['a', '.', 't', 'x', 't'] none).2 =
      (['a', '.', 't', 'x', 't'],
        with_suffix ['a', '.', 't', 'x', 't'] bakSuffix) ∧
    (create_backup ['a', '.', 't', 'x', 't'] none).1 =
      Except.ok (with_suffix ['a', '.', 't', 'x', 't'] bakSuffix) ∧
    (['a'] : List Char) ≠ [] ∧
    (['t', 'x', 't'] : List Char) ≠ [] ∧
    '.' ∉ (['t', 'x', 't'] : List Char) ∧
    with_suffix (['a'] ++ '.' :: ['t', 'x', 't']) bakSuffix =
      ['a'] ++ bakSuffix := by
  have h := create_backup_spec ['a', '.', 't', 'x', 't'] none
  exact ⟨h.1, h.2.1 rfl, by decide, by decide, by decide,
    h.2.2.2 ['a'] ['t', 'x', 't'] (by decide) (by decide) (by decide)⟩

/-- C7: `remove_directory` first attempts the direct `rmdir`: immediate
success removes the (empty) directory; an initial failure with errno
other than `ENOTEMPTY` propagates the raw `OSError` unchanged, whatever
the recursive fallback would have produced; an `ENOTEMPTY` failure runs
exactly the recursive fallback; and on a directory tree the result is
post-order recursive deletion — every child file unlinked, every child
subdirectory recursed into, and the now-empty directory removed last. -/
theorem remove_directory_postorder :
    (∀ fb : Except Raised Bool,
      remove_directory_attempt none fb = Except.ok true) ∧
    (∀ (e : OSErr) (fb : Except Raised Bool), e.errno ≠ Errno.ENOTEMPTY →
      remove_directory_attempt (some e) fb =
        Except.error ⟨Exc.osError e, none⟩) ∧
    (∀ (e : OSErr) (fb : Except Raised Bool), e.errno = Errno.ENOTEMPTY →
      remove_directory_attempt (some e) fb = fb) ∧
    (∀ (n : Nat) (cs : FsForest),
      remove_directory (FsTree.dir n cs) =
        Except.ok (postOrderForest cs ++ [Del.rmdir n])) := by
  refine ⟨fun _ => rfl, ?_, ?_, ?_⟩
  · intro e fb h
    simp [remove_directory_attempt, h]
  · intro e fb h
    simp [remove_directory_attempt, h]
  · intro n cs
    have h := remove_directory_eq_removeSpec (FsTree.dir n cs)
    simpa [removeSpec] using h

/-- Witness for C7: an `ENOTDIR` initial failure propagates unchanged, an
`ENOTEMPTY` one selects the fallback, and a two-level tree (a file and a
subdirectory containing a file) is deleted in post-order. -/
theorem remove_directory_postorder_witness :
    (⟨Errno.ENOTDIR⟩ : OSErr).errno ≠ Errno.ENOTEMPTY ∧
    remove_directory_attempt (some ⟨Errno.ENOTDIR⟩) (Except.ok false) =
      Except.error ⟨Exc.osError ⟨Errno.ENOTDIR⟩, none⟩ ∧
    (⟨Errno.ENOTEMPTY⟩ : OSErr).errno = Errno.ENOTEMPTY ∧
    remove_directory_attempt (some ⟨Errno.ENOTEMPTY⟩) (Except.ok false) =
      Except.ok false ∧
    remove_directory
        (FsTree.dir 0 (FsForest.cons (FsTree.file 1)
          (FsForest.cons
            (FsTree.dir 2 (FsForest.cons (FsTree.file 3) FsForest.nil))
            FsForest.nil))) =
      Except.ok [Del.unlink 1, Del.unlink 3, Del.rmdir 2, Del.rmdir 0] := by
  refine ⟨by decide,
    remove_directory_postorder.2.1 ⟨Errno.ENOTDIR⟩ (Except.ok false) (by decide),
    rfl,
    remove_directory_postorder.2.2.1 ⟨Errno.ENOTEMPTY⟩ (Except.ok false) rfl,
    ?_⟩
  have h := remove_directory_postorder.2.2.2 0
    (FsForest.cons (FsTree.file 1)
      (FsForest.cons (FsTree.dir 2 (FsForest.cons (FsTree.file 3) FsForest.nil))
        FsForest.nil))
  rw [h]
  rfl

/-- C8: `upload` and `download` are literally the same thin call into
`transfer` followed by returning `True`: on identical arguments they are
equal, and both equal the transfer outcome with its success value mapped
to `True` and the same observable collaborator calls. -/
theorem upload_download_equivalent {α : Type} (ef : α → Bool)
    (mo : Option OSErr) (cf : α → α → Except Raised Unit) (s d : α) :
    upload ef mo cf s d = download ef mo cf s d ∧
    upload ef mo cf s d =
      (Except.map (fun _ => true) (transfer ef mo cf s d).1,
        (transfer ef mo cf s d).2) := by
  refine ⟨rfl, ?_⟩
  cases h : (transfer ef mo cf s d).1 with
  | ok a => simp [upload, Except.map, h]
  | error e => simp [upload, Except.map, h]

/-- C9: in every execution of `transfer` the `make_directory` call on the
destination happens at most once; when validation succeeds outright the
only collaborator call is the copy; when the source is invalid no
collaborator is called; and the single mkdir call happens exactly on the
path where destination validation failed. -/
theorem transfer_mkdir_at_most_once {α : Type} (ef : α → Bool)
    (mo : Option OSErr) (cf : α → α → Except Raised Unit) (s d : α) :
    countMkdir (transfer ef mo cf s d).2 ≤ 1 ∧
    (ef s = false → countMkdir (transfer ef mo cf s d).2 = 0) ∧
    (ef s = true → ef d = true →
      (transfer ef mo cf s d).2 = [TEvent.copyCall s d]) ∧
    (ef s = true → ef d = false →
      countMkdir (transfer ef mo cf s d).2 = 1) := by
  cases hs : ef s with
  | false =>
    rw [transfer_eq_src_invalid ef mo cf s d hs]
    exact ⟨by simp [countMkdir], fun _ => by simp [countMkdir],
      fun h _ => by simp [hs] at h, fun h _ => by simp [hs] at h⟩
  | true =>
    cases hd : ef d with
    | true =>
      rw [transfer_eq_both_valid ef mo cf s d hs hd]
      exact ⟨by simp [countMkdir], fun h => by simp [hs] at h,
        fun _ _ => rfl, fun _ h => by simp [hd] at h⟩
    | false =>
      rcases make_directory_cases mo with hm | hm | hm
      · rw [transfer_eq_mkdir_ok ef mo cf s d hs hd _ hm]
        exact ⟨by simp [countMkdir], fun h => by simp [hs] at h,
          fun _ h => by simp [hd] at h, fun _ _ => by simp [countMkdir]⟩
      · rw [transfer_eq_mkdir_ok ef mo cf s d hs hd _ hm]
        exact ⟨by simp [countMkdir], fun h => by simp [hs] at h,
          fun _ h => by simp [hd] at h, fun _ _ => by simp [countMkdir]⟩
      · rw [transfer_eq_mkdir_caught ef mo cf s d ⟨Exc.permissionDenied, none⟩
          hs hd hm (Or.inl rfl)]
        exact ⟨by simp [countMkdir], fun h => by simp [hs] at h,
          fun _ h => by simp [hd] at h, fun _ _ => by simp [countMkdir]⟩

/-- Witness for C9 at source = 0 (exists), destination = 1 (missing):
the mkdir call happens exactly once. -/
theorem transfer_mkdir_at_most_once_witness :
    countMkdir (transfer (fun n : Nat => n == 0) none
      (fun _ _ => Except.ok ()) 0 1).2 ≤ 1 ∧
    countMkdir (transfer (fun n : Nat => n == 0) none
      (fun _ _ => Except.ok ()) 0 1).2 = 1 := by
  have h := transfer_mkdir_at_most_once (fun n : Nat => n == 0) none
    (fun _ _ => Except.ok ()) 0 1
  exact ⟨h.1, h.2.2.2 rfl rfl⟩

/-- C10: when the underlying `mkdir` fails with errno `EACCES` (a genuine
permission denial), `make_directory` raises nothing and returns `None`
(the inverted test skips both `raise` branches), so a `transfer` whose
destination auto-creation fails this way treats it as success and still
invokes the copy strategy, even though the destination directory was
never created. -/
theorem transfer_swallows_eacces {α : Type} (ef : α → Bool)
    (cf : α → α → Except Raised Unit) (s d : α)
    (hs : ef s = true) (hd : ef d = false) :
    make_directory (some ⟨Errno.EACCES⟩) = Except.ok none ∧
    transfer ef (some ⟨Errno.EACCES⟩) cf s d =
      (cf s d, [TEvent.mkdirCall d, TEvent.copyCall s d]) :=
  ⟨rfl, transfer_eq_mkdir_ok ef (some ⟨Errno.EACCES⟩) cf s d hs hd none rfl⟩

/-- Witness for C10 at source = 0 (exists), destination = 1 (missing):
the `EACCES` failure is swallowed and the copy strategy still runs. -/
theorem transfer_swallows_eacces_witness :
    make_directory (some ⟨Errno.EACCES⟩) = Except.ok none ∧
    transfer (fun n : Nat => n == 0) (some ⟨Errno.EACCES⟩)
        (fun _ _ => Except.ok ()) 0 1 =
      (Except.ok (), [TEvent.mkdirCall 1, TEvent.copyCall 0 1]) := by
  have h := transfer_swallows_eacces (fun n : Nat => n == 0)
    (fun _ _ => Except.ok ()) 0 1 rfl rfl
  exact ⟨h.1, h.2⟩

end FileHandle
